import Mathlib

/-
  A verification development for the object-document mapping layer of the
  scine database repository.  The C++ implementation of the bound classes is
  not part of the source tree given here; only the Python test suite under
  src/src/Database/Python/Tests pins the behaviour.  Every definition below is
  therefore modelled from the spec, with its exact behaviour pinned by the
  assertions of the corresponding test file, which are replicated as theorems.
  Identifiers are modelled as natural numbers, the document store as an
  association list from identifiers to documents.
-/

namespace Db

/-- Modelled from the spec: the ModelDescriptor record (spec section 3).  The
C++ class Model is not under src/.  All fields are strings (the temperatures
and the pressure are stored in their string form as well); the defaults are
those the Python tests rely on: spin mode, program and version default to the
wildcard, the remaining optional fields default to the unset sentinel. -/
structure Model where
  method_family : String
  method : String
  basis_set : String
  version : String := "any"
  spin_mode : String := "any"
  program : String := "any"
  solvation : String := "none"
  solvent : String := "none"
  embedding : String := "none"
  periodic_boundaries : String := "none"
  external_field : String := "none"
  temperature : String := "298.15"
  electronic_temperature : String := "none"
  pressure : String := "101325.0"
deriving Repr, DecidableEq

/-- ASCII lower casing of one character, used for the case-insensitive field
comparison of model descriptors. -/
def lowerChar (c : Char) : Char :=
  if c.toNat ≥ 65 && c.toNat ≤ 90 then Char.ofNat (c.toNat + 32) else c

/-- ASCII lower casing of a string. -/
def lowerStr (s : String) : String :=
  String.mk (s.data.map lowerChar)

/-- Modelled from the spec: a model field holding the literal sentinel none or
the empty string is unset (spec section 3, pinned by model_test.py where the
basis set values none and the empty string compare equal). -/
def entryIsNone (s : String) : Bool :=
  lowerStr s == "none" || s == ""

/-- Modelled from the spec: field-by-field symmetric wildcard comparison of two
model fields.  Pinned by model_test.py test_equality_works: equal strings
match (case-insensitively), two unset values match, an unset value never
matches a set value (so the wildcard any does not match none or the empty
string), and otherwise the wildcard any matches any set value. -/
def fieldsAreEqual (a b : String) : Bool :=
  (lowerStr a == lowerStr b) ||
  (entryIsNone a && entryIsNone b) ||
  (!entryIsNone a && !entryIsNone b && (lowerStr a == "any" || lowerStr b == "any"))

/-- Modelled from the spec: Model equality is the conjunction of the symmetric
wildcard field comparison over all fourteen fields (spec sections 3 and 4.4,
pinned by model_test.py test_equality_works). -/
def modelEq (l r : Model) : Bool :=
  fieldsAreEqual l.method_family r.method_family &&
  fieldsAreEqual l.method r.method &&
  fieldsAreEqual l.basis_set r.basis_set &&
  fieldsAreEqual l.version r.version &&
  fieldsAreEqual l.spin_mode r.spin_mode &&
  fieldsAreEqual l.program r.program &&
  fieldsAreEqual l.solvation r.solvation &&
  fieldsAreEqual l.solvent r.solvent &&
  fieldsAreEqual l.embedding r.embedding &&
  fieldsAreEqual l.periodic_boundaries r.periodic_boundaries &&
  fieldsAreEqual l.external_field r.external_field &&
  fieldsAreEqual l.temperature r.temperature &&
  fieldsAreEqual l.electronic_temperature r.electronic_temperature &&
  fieldsAreEqual l.pressure r.pressure

/-- The three-argument constructor of Model used throughout the tests:
method family, method and basis set are given, every other field keeps its
default. -/
def mkModel (mf m bs : String) : Model :=
  { method_family := mf, method := m, basis_set := bs }

theorem fieldsAreEqual_iff (a b : String) :
    fieldsAreEqual a b = true ↔
      lowerStr a = lowerStr b ∨
      (entryIsNone a = true ∧ entryIsNone b = true) ∨
      (entryIsNone a = false ∧ entryIsNone b = false ∧
        (lowerStr a = "any" ∨ lowerStr b = "any")) := by
  unfold fieldsAreEqual
  simp only [Bool.or_eq_true, Bool.and_eq_true, beq_iff_eq, Bool.not_eq_true']
  tauto

theorem fieldsAreEqual_true_of (a b : String) (h : fieldsAreEqual a b = true) :
    fieldsAreEqual b a = true := by
  rw [fieldsAreEqual_iff] at h ⊢
  rcases h with h | ⟨h1, h2⟩ | ⟨h1, h2, h3⟩
  · exact Or.inl h.symm
  · exact Or.inr (Or.inl ⟨h2, h1⟩)
  · exact Or.inr (Or.inr ⟨h2, h1, h3.symm⟩)

theorem fieldsAreEqual_comm (a b : String) : fieldsAreEqual a b = fieldsAreEqual b a := by
  rw [Bool.eq_iff_iff]
  exact ⟨fieldsAreEqual_true_of a b, fieldsAreEqual_true_of b a⟩

theorem modelEq_comm (l r : Model) : modelEq l r = modelEq r l := by
  simp only [modelEq]
  rw [fieldsAreEqual_comm l.method_family, fieldsAreEqual_comm l.method,
    fieldsAreEqual_comm l.basis_set, fieldsAreEqual_comm l.version,
    fieldsAreEqual_comm l.spin_mode, fieldsAreEqual_comm l.program,
    fieldsAreEqual_comm l.solvation, fieldsAreEqual_comm l.solvent,
    fieldsAreEqual_comm l.embedding, fieldsAreEqual_comm l.periodic_boundaries,
    fieldsAreEqual_comm l.external_field, fieldsAreEqual_comm l.temperature,
    fieldsAreEqual_comm l.electronic_temperature, fieldsAreEqual_comm l.pressure]

theorem fieldsAreEqual_any_of_set (b : String) (h : entryIsNone b = false) :
    fieldsAreEqual "any" b = true := by
  have hn : entryIsNone "any" = false := by decide
  have hl : lowerStr "any" = "any" := by decide
  simp [fieldsAreEqual, hn, hl, h]

theorem fieldsAreEqual_none_iff_unset (b : String) :
    fieldsAreEqual "none" b = entryIsNone b := by
  have hn : entryIsNone "none" = true := by decide
  have hl : lowerStr "none" = "none" := by decide
  cases hb : entryIsNone b with
  | true =>
    exact (fieldsAreEqual_iff "none" b).mpr (Or.inr (Or.inl ⟨hn, hb⟩))
  | false =>
    have hne : lowerStr b ≠ "none" := by
      simp only [entryIsNone, Bool.or_eq_false_iff, beq_eq_false_iff_ne, ne_eq] at hb
      exact hb.1
    refine Bool.eq_false_iff.mpr (fun hcon => ?_)
    rcases (fieldsAreEqual_iff "none" b).mp hcon with h | ⟨_, h2⟩ | ⟨h1, _, _⟩
    · exact hne (by rw [← h, hl])
    · rw [hb] at h2
      exact Bool.noConfusion h2
    · rw [hn] at h1
      exact Bool.noConfusion h1

theorem fieldsAreEqual_concrete_ne (a b : String)
    (ha : entryIsNone a = false) (hb : entryIsNone b = false)
    (hwa : lowerStr a ≠ "any") (hwb : lowerStr b ≠ "any")
    (hne : lowerStr a ≠ lowerStr b) :
    fieldsAreEqual a b = false := by
  simp [fieldsAreEqual, ha, hb, hwa, hwb, hne]

/-- C1 counterexample: the claim states that a model whose program is the
wildcard any equals a model whose program is the sentinel none or the empty
string.  On the embedded equality (pinned by model_test.py, lines 126 to 132)
both comparisons are false: two models that agree on every other field and
whose programs are any versus none, or any versus the empty string, are
unequal. -/
theorem model_any_program_none_counterexample :
    modelEq
        { mkModel "dft" "any" "none" with version := "none", program := "any" }
        { mkModel "dft" "something" "" with version := "none", program := "none" } = false ∧
    modelEq
        { mkModel "dft" "any" "none" with version := "none", program := "any" }
        { mkModel "dft" "something" "" with version := "none", program := "" } = false := by
  constructor <;> decide

/-- C1 (amended): ModelDescriptor equality is field-by-field symmetric
wildcard equality; the wildcard any in either operand matches any set value of
the other operand; the sentinel none (and the empty string) matches exactly
the unset values, so in particular any does not match none; two differing
concrete values make the fields, and hence the models, unequal.  The concrete
instances replicate model_test.py test_equality_works. -/
theorem model_equality_symmetric_wildcard :
    (∀ l r : Model, modelEq l r = modelEq r l) ∧
    (∀ b : String, entryIsNone b = false → fieldsAreEqual "any" b = true) ∧
    (∀ b : String, fieldsAreEqual "none" b = entryIsNone b) ∧
    (∀ a b : String, entryIsNone a = false → entryIsNone b = false →
      lowerStr a ≠ "any" → lowerStr b ≠ "any" → lowerStr a ≠ lowerStr b →
      fieldsAreEqual a b = false) ∧
    modelEq { mkModel "dft" "any" "none" with version := "none" }
      { mkModel "dft" "something" "" with version := "none" } = true ∧
    modelEq { mkModel "dft" "any" "none" with version := "none", program := "sparrow" }
      { mkModel "dft" "something" "" with version := "none", program := "sparrow" } = true ∧
    modelEq { mkModel "dft" "any" "none" with version := "none", program := "sparrow" }
      { mkModel "dft" "something" "" with version := "none", program := "something_different" }
      = false ∧
    modelEq { mkModel "dft" "any" "none" with version := "none", program := "any" }
      { mkModel "dft" "something" "" with version := "none", program := "something" } = true :=
  ⟨modelEq_comm, fieldsAreEqual_any_of_set, fieldsAreEqual_none_iff_unset,
    fieldsAreEqual_concrete_ne, by decide, by decide, by decide, by decide⟩

/-- Witness for C1: the amended theorem applied at concrete inputs. -/
theorem model_equality_symmetric_wildcard_witness :
    fieldsAreEqual "any" "water" = true ∧ fieldsAreEqual "water" "ethanol" = false := by
  refine ⟨model_equality_symmetric_wildcard.2.1 "water" (by decide), ?_⟩
  exact model_equality_symmetric_wildcard.2.2.2.1 "water" "ethanol" (by decide) (by decide)
    (by decide) (by decide) (by decide)

/-- Modelled from the spec: the Results aggregate of a Calculation, three
ordered id lists (spec section 3).  The C++ class Results is not under src/;
its concatenation operator is pinned by calculation_test.py test_results. -/
structure Results where
  structure_ids : List Nat := []
  property_ids : List Nat := []
  elementary_step_ids : List Nat := []
deriving Repr, DecidableEq

/-- Append one id to an id list unless it is already present. -/
def addUniqueId (xs : List Nat) (x : Nat) : List Nat :=
  if x ∈ xs then xs else xs ++ [x]

/-- Merge two id lists: keep the left list and append the ids of the right
list that are not yet present, in order.  Pinned by calculation_test.py
test_results, lines 376 to 388, where the merge of two lists of length two
sharing their first id has length three. -/
def mergeIds (xs ys : List Nat) : List Nat :=
  ys.foldl addUniqueId xs

/-- Modelled from the spec: the concatenation operator on Results merges the
three id lists pairwise. -/
def Results.add (a b : Results) : Results :=
  { structure_ids := mergeIds a.structure_ids b.structure_ids
    property_ids := mergeIds a.property_ids b.property_ids
    elementary_step_ids := mergeIds a.elementary_step_ids b.elementary_step_ids }

instance : Add Results := ⟨Results.add⟩

theorem addUniqueId_eq (xs : List Nat) (x : Nat) :
    addUniqueId xs x = xs ++ (if x ∈ xs then [] else [x]) := by
  unfold addUniqueId
  split <;> simp

theorem mem_addUniqueId (y : Nat) (xs : List Nat) (x : Nat) :
    y ∈ addUniqueId xs x ↔ y ∈ xs ∨ y = x := by
  unfold addUniqueId
  split
  · case isTrue h => exact ⟨Or.inl, fun h' => h'.elim id (fun he => he ▸ h)⟩
  · simp

theorem mergeIds_eq_append (ys xs : List Nat) : ∃ t, mergeIds xs ys = xs ++ t := by
  induction ys generalizing xs with
  | nil => exact ⟨[], by simp [mergeIds]⟩
  | cons y ys ih =>
    have hstep : mergeIds xs (y :: ys) = mergeIds (addUniqueId xs y) ys := rfl
    obtain ⟨t, ht⟩ := ih (addUniqueId xs y)
    refine ⟨(if y ∈ xs then [] else [y]) ++ t, ?_⟩
    rw [hstep, ht, addUniqueId_eq, List.append_assoc]

theorem mem_mergeIds (x : Nat) (xs ys : List Nat) :
    x ∈ mergeIds xs ys ↔ x ∈ xs ∨ x ∈ ys := by
  induction ys generalizing xs with
  | nil => simp [mergeIds]
  | cons y ys ih =>
    have hstep : mergeIds xs (y :: ys) = mergeIds (addUniqueId xs y) ys := rfl
    rw [hstep, ih (addUniqueId xs y)]
    rw [mem_addUniqueId]
    simp only [List.mem_cons]
    tauto

theorem nodup_addUniqueId (xs : List Nat) (x : Nat) (h : xs.Nodup) :
    (addUniqueId xs x).Nodup := by
  unfold addUniqueId
  split
  · exact h
  · case isFalse hx => simp [List.nodup_append, h, hx]

theorem nodup_mergeIds (ys xs : List Nat) (h : xs.Nodup) : (mergeIds xs ys).Nodup := by
  induction ys generalizing xs with
  | nil => exact h
  | cons y ys ih => exact ih (addUniqueId xs y) (nodup_addUniqueId xs y h)

/-- C3 counterexample: with a = (S [1,2], P [3,4], E [5,6]) and
b = (S [1,7], P [3,8], E [5,9]) -- exactly the shape of the claim, with the
first id of each list shared -- the concatenation a + b keeps each list at
length three, duplicates removed, not length four with duplicates retained.
This replicates calculation_test.py test_results, lines 376 to 388. -/
theorem results_concat_length_counterexample :
    (Results.mk [1, 2] [3, 4] [5, 6] + Results.mk [1, 7] [3, 8] [5, 9]) =
      Results.mk [1, 2, 7] [3, 4, 8] [5, 6, 9] ∧
    (Results.mk [1, 2] [3, 4] [5, 6] + Results.mk [1, 7] [3, 8] [5, 9]).structure_ids.length
      ≠ 4 := by
  constructor <;> decide

/-- C3 (amended): Results concatenation is order-preserving but
deduplicating: each of the three lists of a + b is the corresponding list of
a, kept unchanged at the front, followed by those ids of the list of b that are
not already present, in their original order; an id occurring in both operands
is kept once, so on the inputs of the claim every list of a + b has length
three, and concatenation never introduces a duplicate into a duplicate-free
list. -/
theorem results_concatenation_dedup :
    (∀ a b : Results,
      (a + b).structure_ids = mergeIds a.structure_ids b.structure_ids ∧
      (a + b).property_ids = mergeIds a.property_ids b.property_ids ∧
      (a + b).elementary_step_ids = mergeIds a.elementary_step_ids b.elementary_step_ids) ∧
    (∀ xs ys : List Nat, ∃ t, mergeIds xs ys = xs ++ t) ∧
    (∀ (x : Nat) (xs ys : List Nat), x ∈ mergeIds xs ys ↔ x ∈ xs ∨ x ∈ ys) ∧
    (∀ xs ys : List Nat, xs.Nodup → (mergeIds xs ys).Nodup) ∧
    (Results.mk [1, 2] [3, 4] [5, 6] + Results.mk [1, 7] [3, 8] [5, 9]) =
      Results.mk [1, 2, 7] [3, 4, 8] [5, 6, 9] :=
  ⟨fun _ _ => ⟨rfl, rfl, rfl⟩,
   fun xs ys => mergeIds_eq_append ys xs,
   fun x xs ys => mem_mergeIds x xs ys,
   fun xs ys h => nodup_mergeIds ys xs h,
   by decide⟩

/-- Witness for C3: the deduplication theorem applied at a concrete
duplicate-free input. -/
theorem results_concatenation_dedup_witness :
    List.Nodup [1, 2] ∧ (mergeIds [1, 2] [1, 7]).Nodup :=
  ⟨by decide, results_concatenation_dedup.2.2.2.1 [1, 2] [1, 7] (by decide)⟩

/-- Modelled from the spec: the failure taxonomy of section 7, restricted to
the causes the claims need.  The two NotAccessibleError causes are kept
distinct as the spec requires. -/
inductive DbError where
  | notAccessibleNoCollection
  | notAccessibleNoId
  | fieldNotSet
  | notFound
  | validation
  | multipleEntries
deriving Repr, DecidableEq

/-- Modelled from the spec: an Entity is a cheap value handle holding an
optional bound collection (here by name) and an optional identifier (spec
sections 3, 4.1 and the design note of section 9). -/
structure Entity where
  collection : Option String := Option.none
  id : Option Nat := Option.none
deriving Repr, DecidableEq

/-- An entity is linked when a collection handle is bound. -/
def Entity.linked (e : Entity) : Bool :=
  e.collection.isSome

/-- An entity is identified when an identifier is assigned. -/
def Entity.identified (e : Entity) : Bool :=
  e.id.isSome

/-- Modelled from the spec: one named set of documents of the Store, an
association list from identifiers to documents (spec section 4.3). -/
abbrev Store (α : Type) : Type := List (Nat × α)

/-- Point lookup in a store collection. -/
def Store.find {α : Type} (st : Store α) (i : Nat) : Option α :=
  (List.find? (fun p => p.1 == i) st).map Prod.snd

/-- Replace the document stored under an identifier. -/
def Store.set {α : Type} (st : Store α) (i : Nat) (d : α) : Store α :=
  st.map (fun p => if p.1 == i then (i, d) else p)

/-- Insert a document under a fresh identifier. -/
def Store.insert {α : Type} (st : Store α) (i : Nat) (d : α) : Store α :=
  (i, d) :: st

/-- Modelled from the spec: the uniform accessor gate of sections 4.1 and 4.2.
Every field accessor of every entity kind first checks that the entity is
linked, then that it is identified, and fails with the distinguishing
NotAccessibleError cause, leaving the store untouched; only in the linked and
identified state does the single store operation run. -/
def access {α β : Type} (e : Entity) (op : Nat → Store α → Except DbError β × Store α)
    (st : Store α) : Except DbError β × Store α :=
  match e.collection with
  | Option.none => (Except.error DbError.notAccessibleNoCollection, st)
  | Option.some _ =>
    match e.id with
    | Option.none => (Except.error DbError.notAccessibleNoId, st)
    | Option.some i => op i st

/-- C4: a field accessor invoked on an unlinked entity fails with the
no-collection cause of NotAccessibleError and returns the store unchanged; on
a linked but unidentified entity it fails with the no-identifier cause and
returns the store unchanged; and an accessor can only succeed on an entity
that is both linked and identified.  The statement quantifies over the store
operation, covering every field accessor of every entity kind uniformly. -/
theorem accessor_requires_linked_and_identified (α β : Type) :
    (∀ (e : Entity) (op : Nat → Store α → Except DbError β × Store α) (st : Store α),
      e.linked = false →
      access e op st = (Except.error DbError.notAccessibleNoCollection, st)) ∧
    (∀ (e : Entity) (op : Nat → Store α → Except DbError β × Store α) (st : Store α),
      e.linked = true → e.identified = false →
      access e op st = (Except.error DbError.notAccessibleNoId, st)) ∧
    (∀ (e : Entity) (op : Nat → Store α → Except DbError β × Store α)
      (st st' : Store α) (r : β),
      access e op st = (Except.ok r, st') → e.linked = true ∧ e.identified = true) := by
  refine ⟨?_, ?_, ?_⟩
  · intro e op st h
    unfold access
    cases hc : e.collection with
    | none => rfl
    | some c => rw [Entity.linked, hc] at h; exact Bool.noConfusion h
  · intro e op st hl hi
    unfold access
    cases hc : e.collection with
    | none => rw [Entity.linked, hc] at hl; exact Bool.noConfusion hl
    | some c =>
      cases hid : e.id with
      | none => rfl
      | some i => rw [Entity.identified, hid] at hi; exact Bool.noConfusion hi
  · intro e op st st' r h
    unfold access at h
    cases hc : e.collection with
    | none =>
      rw [hc] at h
      exact absurd (congrArg Prod.fst h) (by simp)
    | some c =>
      cases hid : e.id with
      | none =>
        rw [hc, hid] at h
        exact absurd (congrArg Prod.fst h) (by simp)
      | some i => exact ⟨by simp [Entity.linked, hc], by simp [Entity.identified, hid]⟩

/-- Witness for C4: the gate theorem applied to a concrete unlinked entity
and to a concrete linked but unidentified entity. -/
theorem accessor_requires_linked_and_identified_witness :
    access (α := Nat) (β := Nat) { } (fun _ st => (Except.ok 0, st)) [] =
      (Except.error DbError.notAccessibleNoCollection, []) ∧
    access (α := Nat) (β := Nat) { collection := Option.some "structures" }
        (fun _ st => (Except.ok 0, st)) [] =
      (Except.error DbError.notAccessibleNoId, []) :=
  ⟨(accessor_requires_linked_and_identified Nat Nat).1 { } _ [] (by decide),
   (accessor_requires_linked_and_identified Nat Nat).2.1
     { collection := Option.some "structures" } _ [] (by decide) (by decide)⟩

/-- Modelled from the spec: the status enum of a Calculation (spec
section 3). -/
inductive Status where
  | CONSTRUCTION
  | NEW
  | PENDING
  | RUNNING
  | COMPLETE
  | FAILED
  | ANALYZED
  | HOLD
deriving Repr, DecidableEq

/-- Modelled from the spec: the Job descriptor of a Calculation, an order name
plus resource hints (spec section 3). -/
structure Job where
  order : String
  memory : Nat := 1
  cores : Nat := 1
  disk : Nat := 1
deriving Repr, DecidableEq

/-- Modelled from the spec: the Calculation document (spec section 3): model,
job, ordered input structure ids, status (CONSTRUCTION on creation), priority
in 1..100 defaulting to 10, auxiliaries, a Results aggregate, and the optional
scalars raw output, comment, executor and runtime.  The optional string
scalars are stored with the empty string as the absent value is read back, the
runtime as an optional number; pinned by calculation_test.py. -/
structure CalculationData where
  model : Model
  job : Job
  structures : List Nat := []
  status : Status := Status.CONSTRUCTION
  priority : Nat := 10
  auxiliaries : List (String × Nat) := []
  results : Results := { }
  raw_output : Option String := Option.none
  comment : Option String := Option.none
  executor : Option String := Option.none
  runtime : Option Rat := Option.none
deriving Repr, DecidableEq

/-- Modelled from the spec: creation of a Calculation performs one store
insert of a document with the creation defaults (status CONSTRUCTION,
priority 10, empty auxiliaries and results) and yields the entity in the
linked and identified state (spec sections 4.1 and 8, pinned by
calculation_test.py test_creation and test_priority). -/
def Calculation.make (m : Model) (j : Job) (structures : List Nat)
    (collName : String) (newId : Nat) (st : Store CalculationData) :
    Entity × Store CalculationData :=
  ({ collection := Option.some collName, id := Option.some newId },
   Store.insert st newId { model := m, job := j, structures := structures })

/-- Modelled from the spec: read the priority field in one store round
trip. -/
def Calculation.get_priority (e : Entity) (st : Store CalculationData) :
    Except DbError Nat × Store CalculationData :=
  access e (fun i st =>
    match Store.find st i with
    | Option.some d => (Except.ok d.priority, st)
    | Option.none => (Except.error DbError.notFound, st)) st

/-- Modelled from the spec: the priority setter validates the range 1..100
client-side before any document access and fails with ValidationError on
violation (spec sections 4.2 and 8); the range check precedes the lookup, as
pinned by calculation_test.py test_property_fails_range, where it fires for a
document absent from the store. -/
def Calculation.set_priority (v : Nat) (e : Entity) (st : Store CalculationData) :
    Except DbError Unit × Store CalculationData :=
  access e (fun i st =>
    if v < 1 ∨ 100 < v then (Except.error DbError.validation, st)
    else
      match Store.find st i with
      | Option.some d => (Except.ok (), Store.set st i { d with priority := v })
      | Option.none => (Except.error DbError.notFound, st)) st

/-- Modelled from the spec: get of the optional numeric runtime fails with
FieldNotSetError when the field is absent (spec section 4.2, pinned by
calculation_test.py test_runtime). -/
def Calculation.get_runtime (e : Entity) (st : Store CalculationData) :
    Except DbError Rat × Store CalculationData :=
  access e (fun i st =>
    match Store.find st i with
    | Option.some d =>
      match d.runtime with
      | Option.some r => (Except.ok r, st)
      | Option.none => (Except.error DbError.fieldNotSet, st)
    | Option.none => (Except.error DbError.notFound, st)) st

/-- Presence check of the runtime field. -/
def Calculation.has_runtime (e : Entity) (st : Store CalculationData) :
    Except DbError Bool × Store CalculationData :=
  access e (fun i st =>
    match Store.find st i with
    | Option.some d => (Except.ok d.runtime.isSome, st)
    | Option.none => (Except.error DbError.notFound, st)) st

/-- Modelled from the spec and pinned by calculation_test.py test_comment: get
of the optional comment returns the empty string when the field is absent. -/
def Calculation.get_comment (e : Entity) (st : Store CalculationData) :
    Except DbError String × Store CalculationData :=
  access e (fun i st =>
    match Store.find st i with
    | Option.some d => (Except.ok (d.comment.getD ""), st)
    | Option.none => (Except.error DbError.notFound, st)) st

/-- Presence check of the comment field. -/
def Calculation.has_comment (e : Entity) (st : Store CalculationData) :
    Except DbError Bool × Store CalculationData :=
  access e (fun i st =>
    match Store.find st i with
    | Option.some d => (Except.ok d.comment.isSome, st)
    | Option.none => (Except.error DbError.notFound, st)) st

/-- Modelled from the spec and pinned by calculation_test.py test_raw_output:
get of the optional raw output returns the empty string when absent. -/
def Calculation.get_raw_output (e : Entity) (st : Store CalculationData) :
    Except DbError String × Store CalculationData :=
  access e (fun i st =>
    match Store.find st i with
    | Option.some d => (Except.ok (d.raw_output.getD ""), st)
    | Option.none => (Except.error DbError.notFound, st)) st

/-- Presence check of the raw output field. -/
def Calculation.has_raw_output (e : Entity) (st : Store CalculationData) :
    Except DbError Bool × Store CalculationData :=
  access e (fun i st =>
    match Store.find st i with
    | Option.some d => (Except.ok d.raw_output.isSome, st)
    | Option.none => (Except.error DbError.notFound, st)) st

/-- Modelled from the spec and pinned by calculation_test.py test_executor:
get of the optional executor returns the empty string when absent. -/
def Calculation.get_executor (e : Entity) (st : Store CalculationData) :
    Except DbError String × Store CalculationData :=
  access e (fun i st =>
    match Store.find st i with
    | Option.some d => (Except.ok (d.executor.getD ""), st)
    | Option.none => (Except.error DbError.notFound, st)) st

/-- Presence check of the executor field. -/
def Calculation.has_executor (e : Entity) (st : Store CalculationData) :
    Except DbError Bool × Store CalculationData :=
  access e (fun i st =>
    match Store.find st i with
    | Option.some d => (Except.ok d.executor.isSome, st)
    | Option.none => (Except.error DbError.notFound, st)) st

theorem Store.find_insert {α : Type} (st : Store α) (i : Nat) (d : α) :
    Store.find (Store.insert st i d) i = Option.some d := by
  simp [Store.find, Store.insert, List.find?]

theorem Store.find_set_self {α : Type} (st : Store α) (i : Nat) (d d' : α)
    (h : Store.find st i = Option.some d) :
    Store.find (Store.set st i d') i = Option.some d' := by
  induction st with
  | nil => exact Option.noConfusion h
  | cons p st ih =>
    by_cases hp : p.1 = i
    · simp [Store.find, Store.set, hp]
    · have hfalse : (p.1 == i) = false := beq_eq_false_iff_ne.mpr hp
      have h1 : Store.find (p :: st) i = Store.find st i := by
        simp [Store.find, List.find?_cons, hfalse]
      have h2 : Store.set (p :: st) i d' = p :: Store.set st i d' := by
        simp only [Store.set, List.map]
        rw [if_neg (by simp [hfalse])]
      rw [h1] at h
      rw [h2]
      have h3 : Store.find (p :: Store.set st i d') i =
          Store.find (Store.set st i d') i := by
        simp [Store.find, List.find?_cons, hfalse]
      rw [h3]
      exact ih h

/-- C5 counterexample: on a linked and identified Calculation whose comment,
raw output and executor are absent, the getters return the empty string with
an ok result instead of failing with FieldNotSetError, exactly as asserted by
calculation_test.py test_comment, test_raw_output and test_executor (the
presence checks return false at the same time). -/
theorem optional_string_get_counterexample :
    Calculation.has_comment
        { collection := Option.some "calculations", id := Option.some 5 }
        [(5, { model := mkModel "dft" "pbe" "def2-svp", job := { order := "geo_opt" } })] =
      (Except.ok false,
        [(5, { model := mkModel "dft" "pbe" "def2-svp", job := { order := "geo_opt" } })]) ∧
    Calculation.get_comment
        { collection := Option.some "calculations", id := Option.some 5 }
        [(5, { model := mkModel "dft" "pbe" "def2-svp", job := { order := "geo_opt" } })] =
      (Except.ok "",
        [(5, { model := mkModel "dft" "pbe" "def2-svp", job := { order := "geo_opt" } })]) ∧
    Calculation.get_raw_output
        { collection := Option.some "calculations", id := Option.some 5 }
        [(5, { model := mkModel "dft" "pbe" "def2-svp", job := { order := "geo_opt" } })] =
      (Except.ok "",
        [(5, { model := mkModel "dft" "pbe" "def2-svp", job := { order := "geo_opt" } })]) ∧
    Calculation.get_executor
        { collection := Option.some "calculations", id := Option.some 5 }
        [(5, { model := mkModel "dft" "pbe" "def2-svp", job := { order := "geo_opt" } })] =
      (Except.ok "",
        [(5, { model := mkModel "dft" "pbe" "def2-svp", job := { order := "geo_opt" } })]) :=
  ⟨rfl, rfl, rfl, rfl⟩

/-- C5 (amended): on a linked and identified Calculation whose document is
present, get of the absent optional numeric runtime fails with
FieldNotSetError while has reports false, and get of a present runtime
returns the stored value; the optional string scalars comment, raw output and
executor instead return the empty string when absent, absence being
distinguished by the has accessor returning false, not by the getter
failing. -/
theorem optional_scalar_absent_semantics :
    ∀ (e : Entity) (c : String) (i : Nat) (st : Store CalculationData)
      (d : CalculationData),
      e.collection = Option.some c → e.id = Option.some i →
      Store.find st i = Option.some d →
      (d.runtime = Option.none →
        Calculation.has_runtime e st = (Except.ok false, st) ∧
        Calculation.get_runtime e st = (Except.error DbError.fieldNotSet, st)) ∧
      (∀ r : Rat, d.runtime = Option.some r →
        Calculation.has_runtime e st = (Except.ok true, st) ∧
        Calculation.get_runtime e st = (Except.ok r, st)) ∧
      (d.comment = Option.none →
        Calculation.has_comment e st = (Except.ok false, st) ∧
        Calculation.get_comment e st = (Except.ok "", st)) ∧
      (d.raw_output = Option.none →
        Calculation.has_raw_output e st = (Except.ok false, st) ∧
        Calculation.get_raw_output e st = (Except.ok "", st)) ∧
      (d.executor = Option.none →
        Calculation.has_executor e st = (Except.ok false, st) ∧
        Calculation.get_executor e st = (Except.ok "", st)) := by
  intro e c i st d hc hi hfind
  refine ⟨fun hrt => ⟨?_, ?_⟩, fun r hrt => ⟨?_, ?_⟩, fun hcm => ⟨?_, ?_⟩,
    fun hro => ⟨?_, ?_⟩, fun hex => ⟨?_, ?_⟩⟩ <;>
    simp_all [Calculation.has_runtime, Calculation.get_runtime, Calculation.has_comment,
      Calculation.get_comment, Calculation.has_raw_output, Calculation.get_raw_output,
      Calculation.has_executor, Calculation.get_executor, access]

/-- Witness for C5: the amended theorem applied at a concrete linked and
identified Calculation with every optional scalar absent. -/
theorem optional_scalar_absent_semantics_witness :
    Calculation.get_runtime
        { collection := Option.some "calculations", id := Option.some 5 }
        [(5, { model := mkModel "dft" "pbe" "def2-svp", job := { order := "geo_opt" } })] =
      (Except.error DbError.fieldNotSet,
        [(5, { model := mkModel "dft" "pbe" "def2-svp", job := { order := "geo_opt" } })]) :=
  ((optional_scalar_absent_semantics
      { collection := Option.some "calculations", id := Option.some 5 }
      "calculations" 5
      [(5, { model := mkModel "dft" "pbe" "def2-svp", job := { order := "geo_opt" } })]
      { model := mkModel "dft" "pbe" "def2-svp", job := { order := "geo_opt" } }
      rfl rfl rfl).1 rfl).2

/-- C7: on a linked and identified Calculation, set_priority with a value
outside 1..100 fails with ValidationError and leaves the store unchanged,
before any document access (the statement holds for every store, including
one where the document is absent); set_priority with a value in 1..100, in
particular 1 and 100, succeeds and a following get_priority returns that
value; and a freshly created Calculation has priority 10. -/
theorem calculation_priority_contract :
    (∀ (e : Entity) (st : Store CalculationData) (v : Nat),
      e.linked = true → e.identified = true → (v < 1 ∨ 100 < v) →
      Calculation.set_priority v e st = (Except.error DbError.validation, st)) ∧
    (∀ (e : Entity) (c : String) (i : Nat) (st : Store CalculationData)
      (d : CalculationData) (v : Nat),
      e.collection = Option.some c → e.id = Option.some i →
      Store.find st i = Option.some d → 1 ≤ v → v ≤ 100 →
      Calculation.set_priority v e st =
        (Except.ok (), Store.set st i { d with priority := v }) ∧
      Calculation.get_priority e (Store.set st i { d with priority := v }) =
        (Except.ok v, Store.set st i { d with priority := v })) ∧
    (∀ (m : Model) (j : Job) (structures : List Nat) (cn : String) (newId : Nat)
      (st : Store CalculationData),
      Calculation.get_priority (Calculation.make m j structures cn newId st).1
          (Calculation.make m j structures cn newId st).2 =
        (Except.ok 10, (Calculation.make m j structures cn newId st).2)) := by
  refine ⟨?_, ?_, ?_⟩
  · intro e st v hl hi hv
    obtain ⟨c, hc⟩ := Option.isSome_iff_exists.mp hl
    obtain ⟨i, hid⟩ := Option.isSome_iff_exists.mp hi
    simp only [Calculation.set_priority, access, hc, hid]
    rw [if_pos hv]
  · intro e c i st d v hc hid hfind h1 h100
    have hrange : ¬(v < 1 ∨ 100 < v) := not_or.mpr ⟨not_lt.mpr h1, not_lt.mpr h100⟩
    constructor
    · simp only [Calculation.set_priority, access, hc, hid]
      rw [if_neg hrange, hfind]
    · simp only [Calculation.get_priority, access, hc, hid,
        Store.find_set_self st i d { d with priority := v } hfind]
  · intro m j structures cn newId st
    simp [Calculation.get_priority, Calculation.make, access, Store.find_insert]

/-- Witness for C7: the priority contract applied at concrete inputs: a
rejected value 0 on an empty store, an accepted value 1 on a one-document
store, and the default priority 10 after a fresh creation. -/
theorem calculation_priority_contract_witness :
    Calculation.set_priority 0
        { collection := Option.some "calculations", id := Option.some 5 } [] =
      (Except.error DbError.validation, []) ∧
    (Calculation.set_priority 1
        { collection := Option.some "calculations", id := Option.some 5 }
        [(5, { model := mkModel "dft" "pbe" "def2-svp", job := { order := "geo_opt" } })]).1 =
      Except.ok () ∧
    Calculation.get_priority
        (Calculation.make (mkModel "dft" "pbe" "def2-svp") { order := "geo_opt" }
          [7, 8, 9] "calculations" 5 []).1
        (Calculation.make (mkModel "dft" "pbe" "def2-svp") { order := "geo_opt" }
          [7, 8, 9] "calculations" 5 []).2 =
      (Except.ok 10,
        (Calculation.make (mkModel "dft" "pbe" "def2-svp") { order := "geo_opt" }
          [7, 8, 9] "calculations" 5 []).2) := by
  refine ⟨?_, ?_, ?_⟩
  · exact calculation_priority_contract.1
      { collection := Option.some "calculations", id := Option.some 5 } [] 0
      (by decide) (by decide) (by decide)
  · rw [(calculation_priority_contract.2.1
      { collection := Option.some "calculations", id := Option.some 5 }
      "calculations" 5
      [(5, { model := mkModel "dft" "pbe" "def2-svp", job := { order := "geo_opt" } })]
      { model := mkModel "dft" "pbe" "def2-svp", job := { order := "geo_opt" } } 1
      rfl rfl rfl (by decide) (by decide)).1]
  · exact calculation_priority_contract.2.2 (mkModel "dft" "pbe" "def2-svp")
      { order := "geo_opt" } [7, 8, 9] "calculations" 5 []

/-- Modelled from the spec: the atomic find-and-modify primitive of the Store
(spec section 4.3, fetch_and_update_one): locate the first document matching
the filter, apply the field update to it within the same atomic store
operation, and hand back the pre-update document state; no match hands back
nothing and leaves the collection unchanged. -/
def fetchAndUpdateOne {α : Type} (p : α → Bool) (u : α → α) :
    List α → Option α × List α
  | [] => (Option.none, [])
  | d :: rest =>
    if p d then (Option.some d, u d :: rest)
    else ((fetchAndUpdateOne p u rest).1, d :: (fetchAndUpdateOne p u rest).2)

/-- Modelled from the spec: a race of n concurrent callers of
fetch_and_update_one over the same filter and collection.  Per section 5 the
store linearizes operations on the same document and each call is one atomic
operation, so the race is an arbitrary sequential interleaving of the n
atomic steps; the list collects what each caller observed. -/
def raceClaims {α : Type} (p : α → Bool) (u : α → α) :
    Nat → List α → List (Option α) × List α
  | 0, st => ([], st)
  | n + 1, st =>
    ((fetchAndUpdateOne p u st).1 ::
        (raceClaims p u n (fetchAndUpdateOne p u st).2).1,
      (raceClaims p u n (fetchAndUpdateOne p u st).2).2)

theorem fetchAndUpdateOne_of_countP_zero {α : Type} (p : α → Bool) (u : α → α)
    (st : List α) (h : List.countP p st = 0) :
    fetchAndUpdateOne p u st = (Option.none, st) := by
  induction st with
  | nil => rfl
  | cons d rest ih =>
    rw [List.countP_cons] at h
    cases hpd : p d with
    | true =>
      rw [hpd] at h
      simp at h
    | false =>
      rw [hpd] at h
      simp only [if_neg Bool.false_ne_true, Nat.add_zero] at h
      simp [fetchAndUpdateOne, hpd, ih h]

theorem fetchAndUpdateOne_some_sat {α : Type} (p : α → Bool) (u : α → α)
    (st : List α) (d : α) (h : (fetchAndUpdateOne p u st).1 = Option.some d) :
    p d = true := by
  induction st with
  | nil => exact Option.noConfusion h
  | cons a rest ih =>
    cases hpa : p a with
    | true =>
      simp only [fetchAndUpdateOne, hpa, if_pos] at h
      exact (Option.some.inj h) ▸ hpa
    | false =>
      simp only [fetchAndUpdateOne, hpa, Bool.false_eq_true, if_neg,
        not_false_iff] at h
      exact ih h

theorem fetchAndUpdateOne_countP_pos {α : Type} (p : α → Bool) (u : α → α)
    (hkill : ∀ d, p (u d) = false) (st : List α) (h : 0 < List.countP p st) :
    (∃ d, (fetchAndUpdateOne p u st).1 = Option.some d) ∧
      List.countP p (fetchAndUpdateOne p u st).2 = List.countP p st - 1 := by
  induction st with
  | nil => simp at h
  | cons a rest ih =>
    cases hpa : p a with
    | true =>
      refine ⟨⟨a, by simp [fetchAndUpdateOne, hpa]⟩, ?_⟩
      simp only [fetchAndUpdateOne, hpa, if_pos]
      rw [List.countP_cons, List.countP_cons, hkill a, hpa]
      simp
    | false =>
      have h' : 0 < List.countP p rest := by
        rw [List.countP_cons, hpa] at h
        simpa using h
      obtain ⟨⟨d, hd⟩, hc⟩ := ih h'
      refine ⟨⟨d, ?_⟩, ?_⟩
      · simp only [fetchAndUpdateOne, hpa, Bool.false_eq_true, if_neg, not_false_iff]
        exact hd
      · simp only [fetchAndUpdateOne, hpa, Bool.false_eq_true, if_neg, not_false_iff]
        rw [List.countP_cons, List.countP_cons, hpa, hc]
        simp only [Bool.false_eq_true, if_neg, not_false_iff, Nat.add_zero]

theorem raceClaims_success_count {α : Type} (p : α → Bool) (u : α → α)
    (hkill : ∀ d, p (u d) = false) (n : Nat) (st : List α) :
    List.countP Option.isSome (raceClaims p u n st).1 = min n (List.countP p st) := by
  induction n generalizing st with
  | zero => simp [raceClaims]
  | succ n ih =>
    rcases Nat.eq_zero_or_pos (List.countP p st) with hz | hpos
    · rw [raceClaims]
      rw [fetchAndUpdateOne_of_countP_zero p u st hz]
      rw [List.countP_cons]
      simp only [Option.isSome_none]
      rw [ih st, hz]
      simp
    · obtain ⟨⟨d, hd⟩, hc⟩ := fetchAndUpdateOne_countP_pos p u hkill st hpos
      rw [raceClaims, List.countP_cons, hd, ih (fetchAndUpdateOne p u st).2, hc]
      simp only [Option.isSome_some, if_pos]
      omega

theorem raceClaims_some_sat {α : Type} (p : α → Bool) (u : α → α)
    (n : Nat) (st : List α) (d : α)
    (h : Option.some d ∈ (raceClaims p u n st).1) : p d = true := by
  induction n generalizing st with
  | zero => simp [raceClaims] at h
  | succ n ih =>
    rw [raceClaims] at h
    rcases List.mem_cons.mp h with h1 | h1
    · exact fetchAndUpdateOne_some_sat p u st d h1.symm
    · exact ih (fetchAndUpdateOne p u st).2 h1

/-- C6: races of fetch_and_update_one over the same filter give at most one
successful claim.  Modelling each call as one atomic step on the shared
collection state and a race of n callers as an arbitrary interleaving
(sequence) of such steps, and assuming the claiming update makes the document
stop matching the filter: the number of callers that observe a pre-update
matching document is min n (number of matching documents) in general, so with
exactly one unclaimed matching document and n at least 1, exactly one caller
observes the pre-update unclaimed state (and what it observes does match the
filter), while every other caller observes no match. -/
theorem fetch_and_update_one_at_most_one_claim :
    ∀ (α : Type) (p : α → Bool) (u : α → α) (st : List α) (n : Nat),
      (∀ d, p (u d) = false) →
      (List.countP Option.isSome (raceClaims p u n st).1 =
        min n (List.countP p st)) ∧
      (List.countP p st = 1 → 1 ≤ n →
        List.countP Option.isSome (raceClaims p u n st).1 = 1 ∧
        ∀ d, Option.some d ∈ (raceClaims p u n st).1 → p d = true) := by
  intro α p u st n hkill
  refine ⟨raceClaims_success_count p u hkill n st, fun h1 hn => ⟨?_, ?_⟩⟩
  · rw [raceClaims_success_count p u hkill n st, h1]
    omega
  · exact fun d hd => raceClaims_some_sat p u n st d hd

/-- Witness for C6: three callers race one matching document among two; the
theorem yields exactly one successful claim. -/
theorem fetch_and_update_one_at_most_one_claim_witness :
    List.countP Option.isSome
      (raceClaims (fun d => d == 0) (fun _ => 1) 3 [0, 5]).1 = 1 :=
  ((fetch_and_update_one_at_most_one_claim Nat (fun d => d == 0) (fun _ => 1)
      [0, 5] 3 (fun _ => rfl)).2 (by decide) (by decide)).1

/-- Modelled from the spec: a Property document; only the name and the
embedded model matter for the query claims, the typed payload is omitted
(spec section 3). -/
structure PropertyData where
  property_name : String
  model : Model
deriving Repr, DecidableEq

/-- Modelled from the spec: the label enum of a Structure (spec section 3). -/
inductive Label where
  | MINIMUM_GUESS
  | TS_GUESS
  | MINIMUM_OPTIMIZED
  | TS_OPTIMIZED
  | DUPLICATE
  | USER_GUESS
  | NONE
deriving Repr, DecidableEq

/-- Modelled from the spec: the Structure document (spec section 3): charge,
multiplicity, model, label, the optional aggregate and original back
references, and the two keyed-mapping indices from a free-text label to id
lists into the property and the calculation collection. -/
structure StructureData where
  charge : Int := 0
  multiplicity : Nat := 1
  model : Model
  label : Label
  aggregate : Option Nat := Option.none
  original : Option Nat := Option.none
  properties : List (String × List Nat) := []
  calculations : List (String × List Nat) := []
deriving Repr, DecidableEq

/-- Look up the id list stored under a key of a keyed mapping; an absent key
holds the empty list. -/
def lookupKey (m : List (String × List Nat)) (k : String) : List Nat :=
  match List.find? (fun p => p.1 == k) m with
  | Option.some p => p.2
  | Option.none => []

/-- Modelled from the spec (section 4.4, option b): the reference semantics of
query_properties, filtering the ids stored under the label by direct
symmetric-wildcard comparison of the stored model of each property document
against the query model. -/
def queryPropertiesDirect (s : StructureData) (label : String) (q : Model)
    (coll : Store PropertyData) : List Nat :=
  (lookupKey s.properties label).filter (fun i =>
    match Store.find coll i with
    | Option.some doc => modelEq doc.model q
    | Option.none => false)

/-- Modelled from the spec (section 4.4, option b): the reference semantics of
query_calculations, the analogue over the calculation collection. -/
def queryCalculationsDirect (s : StructureData) (label : String) (q : Model)
    (coll : Store CalculationData) : List Nat :=
  (lookupKey s.calculations label).filter (fun i =>
    match Store.find coll i with
    | Option.some doc => modelEq doc.model q
    | Option.none => false)

/-- Modelled from the spec (section 4.4, option a): the per-field document
predicate pushed into the store filter for one query field: a wildcard query
field demands a set stored value, an unset query field demands an unset
stored value, and a concrete query field demands the same value
(case-insensitively) or the stored wildcard. -/
def modelFieldFilter (qv : String) : String → Bool :=
  if lowerStr qv == "any" then fun s => !entryIsNone s
  else if entryIsNone qv then fun s => entryIsNone s
  else fun s => lowerStr s == lowerStr qv || lowerStr s == "any"

/-- Modelled from the spec (section 4.4, option a): the conjunction of the
per-field predicates over all fourteen model fields, the document filter the
query path sends to the store. -/
def modelFilter (q : Model) (d : Model) : Bool :=
  modelFieldFilter q.method_family d.method_family &&
  modelFieldFilter q.method d.method &&
  modelFieldFilter q.basis_set d.basis_set &&
  modelFieldFilter q.version d.version &&
  modelFieldFilter q.spin_mode d.spin_mode &&
  modelFieldFilter q.program d.program &&
  modelFieldFilter q.solvation d.solvation &&
  modelFieldFilter q.solvent d.solvent &&
  modelFieldFilter q.embedding d.embedding &&
  modelFieldFilter q.periodic_boundaries d.periodic_boundaries &&
  modelFieldFilter q.external_field d.external_field &&
  modelFieldFilter q.temperature d.temperature &&
  modelFieldFilter q.electronic_temperature d.electronic_temperature &&
  modelFieldFilter q.pressure d.pressure

/-- Modelled from the spec: query_properties as implemented through the
pushed store filter (section 4.4, option a). -/
def Structure.query_properties (s : StructureData) (label : String) (q : Model)
    (coll : Store PropertyData) : List Nat :=
  (lookupKey s.properties label).filter (fun i =>
    match Store.find coll i with
    | Option.some doc => modelFilter q doc.model
    | Option.none => false)

/-- Modelled from the spec: query_calculations as implemented through the
pushed store filter (section 4.4, option a). -/
def Structure.query_calculations (s : StructureData) (label : String) (q : Model)
    (coll : Store CalculationData) : List Nat :=
  (lookupKey s.calculations label).filter (fun i =>
    match Store.find coll i with
    | Option.some doc => modelFilter q doc.model
    | Option.none => false)

theorem lowerStr_eq_empty {s : String} (h : lowerStr s = "") : s = "" := by
  have hdata : s.data.map lowerChar = ([] : List Char) := congrArg String.data h
  have : s.data = [] := List.map_eq_nil_iff.mp hdata
  cases s
  simp_all

theorem entryIsNone_of_lower_none {s : String} (h : lowerStr s = "none") :
    entryIsNone s = true := by
  simp [entryIsNone, h]

theorem entryIsNone_false_of_lower_any {s : String} (h : lowerStr s = "any") :
    entryIsNone s = false := by
  rw [entryIsNone]
  have h1 : (lowerStr s == "none") = false := by simp [h]
  have h2 : (s == "") = false := by
    rcases String.decEq s "" with hne | heq
    · simp [hne]
    · rw [heq] at h
      exact absurd h (by decide)
  rw [h1, h2]
  rfl

theorem modelFieldFilter_eq (qv sv : String) :
    modelFieldFilter qv sv = fieldsAreEqual sv qv := by
  rw [Bool.eq_iff_iff, fieldsAreEqual_iff]
  unfold modelFieldFilter
  by_cases hany : lowerStr qv = "any"
  · rw [if_pos (by simp [hany])]
    have hqn : entryIsNone qv = false := entryIsNone_false_of_lower_any hany
    constructor
    · intro h
      have hs : entryIsNone sv = false := by
        cases hsn : entryIsNone sv with
        | true => rw [hsn] at h; exact Bool.noConfusion h
        | false => rfl
      exact Or.inr (Or.inr ⟨hs, hqn, Or.inr hany⟩)
    · rintro (h | ⟨h1, h2⟩ | ⟨h1, _, _⟩)
      · cases hsn : entryIsNone sv with
        | true =>
          exfalso
          rw [entryIsNone, Bool.or_eq_true, beq_iff_eq, beq_iff_eq] at hsn
          rcases hsn with hsn | hsn
          · rw [h, hany] at hsn
            exact absurd hsn (by decide)
          · rw [hsn] at h
            have : lowerStr "" = "" := by decide
            rw [this] at h
            rw [← h] at hany
            exact absurd hany (by decide)
        | false => rfl
      · rw [entryIsNone, Bool.or_eq_true, beq_iff_eq, beq_iff_eq] at h2
        rcases h2 with h2 | h2
        · rw [h2] at hany
          exact absurd hany (by decide)
        · rw [h2] at hany
          have : lowerStr "" = "" := by decide
          rw [this] at hany
          exact absurd hany (by decide)
      · rw [h1]
        rfl
  · rw [if_neg (by simp [hany])]
    by_cases hqn : entryIsNone qv = true
    · rw [if_pos hqn]
      constructor
      · intro h
        cases hsn : entryIsNone sv with
        | true => exact Or.inr (Or.inl ⟨rfl, hqn⟩)
        | false => rw [hsn] at h; exact Bool.noConfusion h
      · rintro (h | ⟨h1, h2⟩ | ⟨h1, h2, h3⟩)
        · rw [entryIsNone, Bool.or_eq_true, beq_iff_eq, beq_iff_eq] at hqn ⊢
          rcases hqn with hq | hq
          · exact Or.inl (by rw [h, hq])
          · rw [hq] at h
            have he : lowerStr "" = "" := by decide
            rw [he] at h
            exact Or.inr (lowerStr_eq_empty h)
        · exact h1
        · rw [hqn] at h2
          exact Bool.noConfusion h2
    · have hqn' : entryIsNone qv = false := Bool.eq_false_iff.mpr hqn
      rw [if_neg hqn]
      simp only [Bool.or_eq_true, beq_iff_eq]
      constructor
      · rintro (h | h)
        · exact Or.inl h
        · have hs : entryIsNone sv = false := entryIsNone_false_of_lower_any h
          exact Or.inr (Or.inr ⟨hs, hqn', Or.inl h⟩)
      · rintro (h | ⟨h1, h2⟩ | ⟨h1, h2, h3 | h3⟩)
        · exact Or.inl h
        · rw [hqn'] at h2
          exact Bool.noConfusion h2
        · exact Or.inr h3
        · exact absurd h3 hany

theorem modelFilter_eq_modelEq (q d : Model) : modelFilter q d = modelEq d q := by
  simp only [modelFilter, modelEq, modelFieldFilter_eq]

theorem query_properties_eq_direct (s : StructureData) (label : String) (q : Model)
    (coll : Store PropertyData) :
    Structure.query_properties s label q coll = queryPropertiesDirect s label q coll := by
  unfold Structure.query_properties queryPropertiesDirect
  refine List.filter_congr (fun i _ => ?_)
  cases Store.find coll i with
  | none => rfl
  | some doc => exact modelFilter_eq_modelEq q doc.model

theorem query_calculations_eq_direct (s : StructureData) (label : String) (q : Model)
    (coll : Store CalculationData) :
    Structure.query_calculations s label q coll = queryCalculationsDirect s label q coll := by
  unfold Structure.query_calculations queryCalculationsDirect
  refine List.filter_congr (fun i _ => ?_)
  cases Store.find coll i with
  | none => rfl
  | some doc => exact modelFilter_eq_modelEq q doc.model

/-- The first stored model of structure_test.py test_property_four: dft, pbe,
def2-svp, computed by the program serenity. -/
def serenityModel : Model :=
  { mkModel "dft" "pbe" "def2-svp" with program := "serenity" }

/-- The second stored model of structure_test.py test_property_four: am1 with
an unset basis set, computed by the program sparrow. -/
def sparrowModel : Model :=
  { mkModel "am1" "am1" "" with program := "sparrow" }

/-- The structure of structure_test.py test_property_four and
test_calculation_four: three entries under one property label and three under
one calculation label. -/
def queryFixture : StructureData :=
  { model := mkModel "dft" "pbe" "def2-svp", label := Label.MINIMUM_GUESS,
    properties := [("electronic_energy", [1, 2, 3])],
    calculations := [("test", [1, 2, 3])] }

/-- The property collection of structure_test.py test_property_four: one
document with the serenity model and two with the sparrow model. -/
def queryFixtureProps : Store PropertyData :=
  [(1, { property_name := "electronic_energy", model := serenityModel }),
   (2, { property_name := "electronic_energy", model := sparrowModel }),
   (3, { property_name := "electronic_energy", model := sparrowModel })]

/-- The calculation collection of structure_test.py test_calculation_four. -/
def queryFixtureCalcs : Store CalculationData :=
  [(1, { model := serenityModel, job := { order := "test" }, structures := [9] }),
   (2, { model := sparrowModel, job := { order := "test" }, structures := [9] }),
   (3, { model := sparrowModel, job := { order := "test" }, structures := [9] })]

/-- C2 counterexample: the claim states that Model(dft, any, any) matches any
stored model with method_family dft regardless of other fields, and that
Model(any, any, any) matches every concrete model.  Both fail: a stored model
(dft, pbe, none) -- method_family dft, basis set unset -- is not returned by a
query with (dft, any, any), because the wildcard does not match an unset
value; and on the fixture of the cited test the fully wildcarded query
returns one entry of three, exactly as structure_test.py test_property_four
asserts (the am1 models with the empty basis set are not matched). -/
theorem query_wildcard_counterexample :
    Structure.query_properties
        { model := mkModel "dft" "pbe" "def2-svp", label := Label.MINIMUM_GUESS,
          properties := [("electronic_energy", [1])] }
        "electronic_energy" (mkModel "dft" "any" "any")
        [(1, { property_name := "electronic_energy",
               model := mkModel "dft" "pbe" "none" })] = [] ∧
    (mkModel "dft" "pbe" "none").method_family = "dft" ∧
    Structure.query_properties queryFixture "electronic_energy"
        (mkModel "any" "any" "any") queryFixtureProps = [1] :=
  ⟨by decide, rfl, by decide⟩

/-- C2 (amended): query_properties and query_calculations return exactly the
entries stored under the label whose stored model is symmetric-wildcard-equal
to the query model: the pushed-filter path coincides with the direct
field-by-field comparison path, and the per-field filter coincides with the
symmetric wildcard field comparison.  The wildcard matches only set values,
so the fully wildcarded query matches a stored model only where the fields of
that model are set; the concrete instances replicate every query of
structure_test.py test_property_four and test_calculation_four. -/
theorem query_by_model_refinement :
    (∀ (s : StructureData) (label : String) (q : Model) (coll : Store PropertyData),
      Structure.query_properties s label q coll = queryPropertiesDirect s label q coll) ∧
    (∀ (s : StructureData) (label : String) (q : Model) (coll : Store CalculationData),
      Structure.query_calculations s label q coll = queryCalculationsDirect s label q coll) ∧
    (∀ qv sv : String, modelFieldFilter qv sv = fieldsAreEqual sv qv) ∧
    Structure.query_properties queryFixture "electronic_energy"
      (mkModel "dft" "sdfasdf" "asdf") queryFixtureProps = [] ∧
    Structure.query_properties queryFixture "electronic_energy"
      serenityModel queryFixtureProps = [1] ∧
    Structure.query_properties queryFixture "electronic_energy"
      sparrowModel queryFixtureProps = [2, 3] ∧
    Structure.query_properties queryFixture "electronic_energy"
      (mkModel "dft" "any" "any") queryFixtureProps = [1] ∧
    Structure.query_properties queryFixture "none_existing_key"
      (mkModel "dft" "sdfasdf" "asdf") queryFixtureProps = [] ∧
    Structure.query_calculations queryFixture "test"
      (mkModel "dft" "sdfasdf" "asdf") queryFixtureCalcs = [] ∧
    Structure.query_calculations queryFixture "test"
      serenityModel queryFixtureCalcs = [1] ∧
    Structure.query_calculations queryFixture "test"
      sparrowModel queryFixtureCalcs = [2, 3] ∧
    Structure.query_calculations queryFixture "test"
      (mkModel "dft" "any" "any") queryFixtureCalcs = [1] ∧
    Structure.query_calculations queryFixture "test"
      (mkModel "any" "any" "any") queryFixtureCalcs = [1] :=
  ⟨query_properties_eq_direct, query_calculations_eq_direct, modelFieldFilter_eq,
   by decide, by decide, by decide, by decide, by decide,
   by decide, by decide, by decide, by decide, by decide⟩

/-- Modelled from the spec: the side selector of reactant operations (spec
section 3). -/
inductive Side where
  | LHS
  | RHS
  | BOTH
deriving Repr, DecidableEq

/-- Modelled from the spec: the aggregate kind tag of a Reaction reactant
(spec section 3). -/
inductive CompoundOrFlask where
  | COMPOUND
  | FLASK
deriving Repr, DecidableEq

/-- Modelled from the spec: the Reaction document (spec section 3): the two
ordered reactant lists of id and kind pairs, and the elementary step list. -/
structure ReactionData where
  lhs : List (Nat × CompoundOrFlask) := []
  rhs : List (Nat × CompoundOrFlask) := []
  elementary_steps : List Nat := []
deriving Repr, DecidableEq

/-- Whether a side selector addresses the LHS list. -/
def Side.appliesLhs : Side → Bool
  | Side.LHS => true
  | Side.RHS => false
  | Side.BOTH => true

/-- Whether a side selector addresses the RHS list. -/
def Side.appliesRhs : Side → Bool
  | Side.LHS => false
  | Side.RHS => true
  | Side.BOTH => true

/-- Modelled from the spec: add one reactant with its kind to the selected
side or sides (spec section 3, pinned by reaction_test.py). -/
def Reaction.add_reactant (d : ReactionData) (i : Nat) (side : Side)
    (t : CompoundOrFlask) : ReactionData :=
  { d with
    lhs := if side.appliesLhs then d.lhs ++ [(i, t)] else d.lhs
    rhs := if side.appliesRhs then d.rhs ++ [(i, t)] else d.rhs }

/-- Modelled from the spec: replace the reactant list of the selected side or
sides. -/
def Reaction.set_reactants (d : ReactionData) (rs : List (Nat × CompoundOrFlask))
    (side : Side) : ReactionData :=
  { d with
    lhs := if side.appliesLhs then rs else d.lhs
    rhs := if side.appliesRhs then rs else d.rhs }

/-- Modelled from the spec: remove a reactant id (its first occurrence) from
the selected side or sides. -/
def Reaction.remove_reactant (d : ReactionData) (i : Nat) (side : Side) :
    ReactionData :=
  { d with
    lhs := if side.appliesLhs then d.lhs.eraseP (fun p => p.1 == i) else d.lhs
    rhs := if side.appliesRhs then d.rhs.eraseP (fun p => p.1 == i) else d.rhs }

/-- Modelled from the spec: clear the reactant list of the selected side or
sides. -/
def Reaction.clear_reactants (d : ReactionData) (side : Side) : ReactionData :=
  { d with
    lhs := if side.appliesLhs then [] else d.lhs
    rhs := if side.appliesRhs then [] else d.rhs }

/-- Modelled from the spec: has_reactants reports the pair of the two list
lengths (spec sections 3 and 4.2). -/
def Reaction.has_reactants (d : ReactionData) : Nat × Nat :=
  (d.lhs.length, d.rhs.length)

theorem eraseP_length_eq {l1 l2 : List (Nat × CompoundOrFlask)} (i : Nat)
    (hlen : l1.length = l2.length)
    (hmem : (∃ p ∈ l1, p.1 = i) ↔ (∃ p ∈ l2, p.1 = i)) :
    (l1.eraseP (fun p => p.1 == i)).length = (l2.eraseP (fun p => p.1 == i)).length := by
  by_cases h1 : ∃ p ∈ l1, p.1 = i
  · obtain ⟨p, hp, hpi⟩ := h1
    obtain ⟨q, hq, hqi⟩ := hmem.mp ⟨p, hp, hpi⟩
    rw [List.length_eraseP_of_mem hp (by simp [hpi]),
      List.length_eraseP_of_mem hq (by simp [hqi]), hlen]
  · have h2 : ¬ ∃ p ∈ l2, p.1 = i := fun hx => h1 (hmem.mpr hx)
    rw [List.eraseP_of_forall_not, List.eraseP_of_forall_not, hlen]
    · intro a ha
      simp only [beq_iff_eq]
      exact fun he => h2 ⟨a, ha, he⟩
    · intro a ha
      simp only [beq_iff_eq]
      exact fun he => h1 ⟨a, ha, he⟩

/-- C8: reactant mutation with Side.BOTH applies the same change to the LHS
and the RHS list: add appends the same pair to both, set replaces both by the
same list, remove erases the same id from both, clear empties both; and
has_reactants reports equal counts afterwards whenever the counts were in
lockstep before (for remove, whenever additionally the erased id is present
on either both sides or neither).  The concrete chain replicates
reaction_test.py test_reactants_both: counts (1,1) become (2,2) after add,
(3,3) after set, (2,2) after remove and (0,0) after clear. -/
theorem reactants_side_both_symmetric :
    (∀ (d : ReactionData) (i : Nat) (t : CompoundOrFlask),
      (Reaction.add_reactant d i Side.BOTH t).lhs = d.lhs ++ [(i, t)] ∧
      (Reaction.add_reactant d i Side.BOTH t).rhs = d.rhs ++ [(i, t)]) ∧
    (∀ (d : ReactionData) (rs : List (Nat × CompoundOrFlask)),
      (Reaction.set_reactants d rs Side.BOTH).lhs = rs ∧
      (Reaction.set_reactants d rs Side.BOTH).rhs = rs) ∧
    (∀ (d : ReactionData) (i : Nat),
      (Reaction.remove_reactant d i Side.BOTH).lhs = d.lhs.eraseP (fun p => p.1 == i) ∧
      (Reaction.remove_reactant d i Side.BOTH).rhs = d.rhs.eraseP (fun p => p.1 == i)) ∧
    (∀ d : ReactionData,
      (Reaction.clear_reactants d Side.BOTH).lhs = [] ∧
      (Reaction.clear_reactants d Side.BOTH).rhs = []) ∧
    (∀ (d : ReactionData) (i : Nat) (t : CompoundOrFlask),
      (Reaction.has_reactants d).1 = (Reaction.has_reactants d).2 →
      (Reaction.has_reactants (Reaction.add_reactant d i Side.BOTH t)).1 =
        (Reaction.has_reactants (Reaction.add_reactant d i Side.BOTH t)).2) ∧
    (∀ (d : ReactionData) (rs : List (Nat × CompoundOrFlask)),
      Reaction.has_reactants (Reaction.set_reactants d rs Side.BOTH) =
        (rs.length, rs.length)) ∧
    (∀ d : ReactionData,
      Reaction.has_reactants (Reaction.clear_reactants d Side.BOTH) = (0, 0)) ∧
    (∀ (d : ReactionData) (i : Nat),
      (Reaction.has_reactants d).1 = (Reaction.has_reactants d).2 →
      ((∃ p ∈ d.lhs, p.1 = i) ↔ (∃ p ∈ d.rhs, p.1 = i)) →
      (Reaction.has_reactants (Reaction.remove_reactant d i Side.BOTH)).1 =
        (Reaction.has_reactants (Reaction.remove_reactant d i Side.BOTH)).2) ∧
    (Reaction.has_reactants
        { lhs := [(1, CompoundOrFlask.COMPOUND)], rhs := [(2, CompoundOrFlask.FLASK)] }
      = (1, 1) ∧
     Reaction.has_reactants
        (Reaction.add_reactant
          { lhs := [(1, CompoundOrFlask.COMPOUND)], rhs := [(2, CompoundOrFlask.FLASK)] }
          3 Side.BOTH CompoundOrFlask.FLASK) = (2, 2) ∧
     Reaction.has_reactants
        (Reaction.set_reactants
          (Reaction.add_reactant
            { lhs := [(1, CompoundOrFlask.COMPOUND)], rhs := [(2, CompoundOrFlask.FLASK)] }
            3 Side.BOTH CompoundOrFlask.FLASK)
          [(4, CompoundOrFlask.COMPOUND), (5, CompoundOrFlask.COMPOUND),
           (6, CompoundOrFlask.COMPOUND)] Side.BOTH) = (3, 3) ∧
     Reaction.has_reactants
        (Reaction.remove_reactant
          (Reaction.set_reactants
            (Reaction.add_reactant
              { lhs := [(1, CompoundOrFlask.COMPOUND)], rhs := [(2, CompoundOrFlask.FLASK)] }
              3 Side.BOTH CompoundOrFlask.FLASK)
            [(4, CompoundOrFlask.COMPOUND), (5, CompoundOrFlask.COMPOUND),
             (6, CompoundOrFlask.COMPOUND)] Side.BOTH)
          5 Side.BOTH) = (2, 2) ∧
     Reaction.has_reactants
        (Reaction.clear_reactants
          (Reaction.remove_reactant
            (Reaction.set_reactants
              (Reaction.add_reactant
                { lhs := [(1, CompoundOrFlask.COMPOUND)], rhs := [(2, CompoundOrFlask.FLASK)] }
                3 Side.BOTH CompoundOrFlask.FLASK)
              [(4, CompoundOrFlask.COMPOUND), (5, CompoundOrFlask.COMPOUND),
               (6, CompoundOrFlask.COMPOUND)] Side.BOTH)
            5 Side.BOTH) Side.BOTH) = (0, 0)) := by
  refine ⟨fun d i t => ⟨rfl, rfl⟩, fun d rs => ⟨rfl, rfl⟩, fun d i => ⟨rfl, rfl⟩,
    fun d => ⟨rfl, rfl⟩, ?_, fun d rs => rfl, fun d => rfl, ?_,
    by decide, by decide, by decide, by decide, by decide⟩
  · intro d i t h
    simp only [Reaction.has_reactants, Reaction.add_reactant, Side.appliesLhs,
      Side.appliesRhs, if_pos, List.length_append] at h ⊢
    omega
  · intro d i h hmem
    simp only [Reaction.has_reactants, Reaction.remove_reactant] at h ⊢
    simp only [Side.appliesLhs, Side.appliesRhs, if_pos]
    exact eraseP_length_eq i h hmem

/-- Witness for C8: the count-preservation parts applied at the state of the
cited test after the set step: both sides hold ids 4, 5, 6 and removing id 5
from both keeps the counts equal. -/
theorem reactants_side_both_symmetric_witness :
    (Reaction.has_reactants
      (Reaction.remove_reactant
        { lhs := [(4, CompoundOrFlask.COMPOUND), (5, CompoundOrFlask.COMPOUND),
                  (6, CompoundOrFlask.COMPOUND)]
          rhs := [(4, CompoundOrFlask.COMPOUND), (5, CompoundOrFlask.COMPOUND),
                  (6, CompoundOrFlask.COMPOUND)] }
        5 Side.BOTH)).1 =
    (Reaction.has_reactants
      (Reaction.remove_reactant
        { lhs := [(4, CompoundOrFlask.COMPOUND), (5, CompoundOrFlask.COMPOUND),
                  (6, CompoundOrFlask.COMPOUND)]
          rhs := [(4, CompoundOrFlask.COMPOUND), (5, CompoundOrFlask.COMPOUND),
                  (6, CompoundOrFlask.COMPOUND)] }
        5 Side.BOTH)).2 :=
  reactants_side_both_symmetric.2.2.2.2.2.2.2.1
    { lhs := [(4, CompoundOrFlask.COMPOUND), (5, CompoundOrFlask.COMPOUND),
              (6, CompoundOrFlask.COMPOUND)]
      rhs := [(4, CompoundOrFlask.COMPOUND), (5, CompoundOrFlask.COMPOUND),
              (6, CompoundOrFlask.COMPOUND)] }
    5 (by decide) (by decide)

/-- Modelled from the spec: follow the original back references of duplicate
structures until a structure with a set aggregate field is reached; the fuel
bounds the chain by the collection size (the spec leaves the hop limit of
nested duplicate chains open, section 9, but the cited tests only exercise a
single hop). -/
def getAggregateFollow (coll : Store StructureData) : Nat → StructureData →
    Except DbError Nat
  | 0, _ => Except.error DbError.notFound
  | fuel + 1, d =>
    match d.aggregate with
    | Option.some a => Except.ok a
    | Option.none =>
      match d.original with
      | Option.some o =>
        match Store.find coll o with
        | Option.some od => getAggregateFollow coll fuel od
        | Option.none => Except.error DbError.notFound
      | Option.none => Except.error DbError.fieldNotSet

/-- Modelled from the spec: get_aggregate with its recursive flag defaulting
to true (spec sections 3 and 9): return the own aggregate field when set;
otherwise, only when recursive, follow the original back reference and return
the aggregate found there; fail when the field is absent and cannot be
resolved.  Pinned by structure_test.py test_aggregate_access_via_duplicate. -/
def Structure.get_aggregate (d : StructureData) (coll : Store StructureData)
    (recursive : Bool := true) : Except DbError Nat :=
  match d.aggregate with
  | Option.some a => Except.ok a
  | Option.none =>
    if recursive then
      match d.original with
      | Option.some o =>
        match Store.find coll o with
        | Option.some od => getAggregateFollow coll coll.length od
        | Option.none => Except.error DbError.notFound
      | Option.none => Except.error DbError.fieldNotSet
    else Except.error DbError.fieldNotSet

theorem Store.find_ne_nil {α : Type} {st : Store α} {i : Nat} {d : α}
    (h : Store.find st i = Option.some d) : st ≠ [] := by
  intro hnil
  rw [hnil] at h
  exact Option.noConfusion h

/-- C9: for a Structure whose own aggregate field is absent and whose
original back reference points at a stored structure, get_aggregate with the
recursive flag at its default follows the back reference: it returns the
aggregate id of the original when that is set; get_aggregate with recursive
false fails instead; and when neither the duplicate nor its original can
resolve an aggregate, get_aggregate fails as well (a structure whose own
aggregate is set returns it directly, which is what the original structure of
the cited test does). -/
theorem aggregate_access_via_duplicate :
    (∀ (d : StructureData) (coll : Store StructureData) (a : Nat),
      d.aggregate = Option.some a →
      Structure.get_aggregate d coll = Except.ok a ∧
      Structure.get_aggregate d coll false = Except.ok a) ∧
    (∀ (d od : StructureData) (o a : Nat) (coll : Store StructureData),
      d.aggregate = Option.none → d.original = Option.some o →
      Store.find coll o = Option.some od → od.aggregate = Option.some a →
      Structure.get_aggregate d coll = Except.ok a) ∧
    (∀ (d : StructureData) (coll : Store StructureData),
      d.aggregate = Option.none →
      Structure.get_aggregate d coll false = Except.error DbError.fieldNotSet) ∧
    (∀ (d od : StructureData) (o : Nat) (coll : Store StructureData),
      d.aggregate = Option.none → d.original = Option.some o →
      Store.find coll o = Option.some od → od.aggregate = Option.none →
      od.original = Option.none →
      Structure.get_aggregate d coll = Except.error DbError.fieldNotSet) := by
  refine ⟨?_, ?_, ?_, ?_⟩
  · intro d coll a ha
    exact ⟨by simp [Structure.get_aggregate, ha], by simp [Structure.get_aggregate, ha]⟩
  · intro d od o a coll hd ho hfind hod
    cases coll with
    | nil => exact absurd rfl (Store.find_ne_nil hfind)
    | cons p rest =>
      simp only [Structure.get_aggregate, hd, ho, hfind, if_pos, List.length_cons]
      simp [getAggregateFollow, hod]
  · intro d coll hd
    simp [Structure.get_aggregate, hd]
  · intro d od o coll hd ho hfind hoda hodo
    cases coll with
    | nil => exact absurd rfl (Store.find_ne_nil hfind)
    | cons p rest =>
      simp only [Structure.get_aggregate, hd, ho, hfind, if_pos, List.length_cons]
      simp [getAggregateFollow, hoda, hodo]

/-- Witness for C9: the theorem applied at the concrete fixture of
structure_test.py test_aggregate_access_via_duplicate: structure 1 carries
aggregate 42, structure 2 is its duplicate with no own aggregate; following
the original yields 42, the non-recursive call fails. -/
theorem aggregate_access_via_duplicate_witness :
    Structure.get_aggregate
        { model := mkModel "dft" "pbe" "def2-svp", label := Label.DUPLICATE,
          original := Option.some 1 }
        [(1, { model := mkModel "dft" "pbe" "def2-svp", label := Label.MINIMUM_GUESS,
               aggregate := Option.some 42 })] = Except.ok 42 ∧
    Structure.get_aggregate
        { model := mkModel "dft" "pbe" "def2-svp", label := Label.DUPLICATE,
          original := Option.some 1 }
        [(1, { model := mkModel "dft" "pbe" "def2-svp", label := Label.MINIMUM_GUESS,
               aggregate := Option.some 42 })] false =
      Except.error DbError.fieldNotSet :=
  ⟨aggregate_access_via_duplicate.2.1
      { model := mkModel "dft" "pbe" "def2-svp", label := Label.DUPLICATE,
        original := Option.some 1 }
      { model := mkModel "dft" "pbe" "def2-svp", label := Label.MINIMUM_GUESS,
        aggregate := Option.some 42 }
      1 42
      [(1, { model := mkModel "dft" "pbe" "def2-svp", label := Label.MINIMUM_GUESS,
             aggregate := Option.some 42 })]
      rfl rfl rfl rfl,
   aggregate_access_via_duplicate.2.2.1
      { model := mkModel "dft" "pbe" "def2-svp", label := Label.DUPLICATE,
        original := Option.some 1 }
      [(1, { model := mkModel "dft" "pbe" "def2-svp", label := Label.MINIMUM_GUESS,
             aggregate := Option.some 42 })]
      rfl⟩

/-- Store the given id list under a key of a keyed mapping, replacing the
present entry or appending a new one. -/
def setKey (m : List (String × List Nat)) (k : String) (v : List Nat) :
    List (String × List Nat) :=
  if m.any (fun p => p.1 == k) then m.map (fun p => if p.1 == k then (k, v) else p)
  else m ++ [(k, v)]

/-- Modelled from the spec: the singular getter over a keyed index returns
the stored id exactly when the list under the key holds exactly one id, and
fails otherwise (pinned by structure_test.py test_property_one and
test_calculation_one, where the getter works with one stored id and fails
after a second one is added). -/
def getSingleEntry (m : List (String × List Nat)) (k : String) :
    Except DbError Nat :=
  match lookupKey m k with
  | [] => Except.error DbError.fieldNotSet
  | [i] => Except.ok i
  | _ :: _ :: _ => Except.error DbError.multipleEntries

/-- Membership of one id anywhere in a keyed index, the id overload of
has_property and has_calculation. -/
def hasIdInKeyed (m : List (String × List Nat)) (i : Nat) : Bool :=
  m.any (fun p => p.2.contains i)

/-- Modelled from the spec: the singular property getter of a Structure. -/
def Structure.get_property (d : StructureData) (label : String) :
    Except DbError Nat :=
  getSingleEntry d.properties label

/-- Modelled from the spec: set_property stores a single id under the label. -/
def Structure.set_property (d : StructureData) (label : String) (i : Nat) :
    StructureData :=
  { d with properties := setKey d.properties label [i] }

/-- Modelled from the spec: add_property appends one id to the list under the
label. -/
def Structure.add_property (d : StructureData) (label : String) (i : Nat) :
    StructureData :=
  { d with properties := setKey d.properties label (lookupKey d.properties label ++ [i]) }

/-- Modelled from the spec: the id overload of has_property. -/
def Structure.has_property (d : StructureData) (i : Nat) : Bool :=
  hasIdInKeyed d.properties i

/-- Modelled from the spec: the singular calculation getter of a Structure. -/
def Structure.get_calculation (d : StructureData) (label : String) :
    Except DbError Nat :=
  getSingleEntry d.calculations label

/-- Modelled from the spec: set_calculation stores a single id under the
label. -/
def Structure.set_calculation (d : StructureData) (label : String) (i : Nat) :
    StructureData :=
  { d with calculations := setKey d.calculations label [i] }

/-- Modelled from the spec: add_calculation appends one id to the list under
the label. -/
def Structure.add_calculation (d : StructureData) (label : String) (i : Nat) :
    StructureData :=
  { d with calculations := setKey d.calculations label (lookupKey d.calculations label ++ [i]) }

/-- Modelled from the spec: the id overload of has_calculation. -/
def Structure.has_calculation (d : StructureData) (i : Nat) : Bool :=
  hasIdInKeyed d.calculations i

theorem lookupKey_append_new (m : List (String × List Nat)) (k : String)
    (v : List Nat) (h : m.any (fun p => p.1 == k) = false) :
    lookupKey (m ++ [(k, v)]) k = v := by
  induction m with
  | nil => simp [lookupKey]
  | cons p m ih =>
    rw [List.any_cons, Bool.or_eq_false_iff] at h
    have hstep : lookupKey ((p :: m) ++ [(k, v)]) k = lookupKey (m ++ [(k, v)]) k := by
      simp [lookupKey, List.find?_cons, h.1]
    rw [hstep, ih h.2]

theorem lookupKey_mapReplace (m : List (String × List Nat)) (k : String)
    (v : List Nat) (h : m.any (fun p => p.1 == k) = true) :
    lookupKey (m.map (fun p => if p.1 == k then (k, v) else p)) k = v := by
  induction m with
  | nil => simp at h
  | cons p m ih =>
    cases hpk : (p.1 == k) with
    | true =>
      have hk : (k == k) = true := by simp
      simp only [List.map, hpk, if_pos]
      simp [lookupKey, List.find?_cons, hk]
    | false =>
      rw [List.any_cons, hpk, Bool.false_or] at h
      simp only [List.map, hpk, Bool.false_eq_true, if_neg, not_false_iff]
      have hstep : lookupKey (p :: m.map (fun p => if p.1 == k then (k, v) else p)) k =
          lookupKey (m.map (fun p => if p.1 == k then (k, v) else p)) k := by
        simp [lookupKey, List.find?_cons, hpk]
      rw [hstep, ih h]

theorem lookupKey_setKey (m : List (String × List Nat)) (k : String)
    (v : List Nat) : lookupKey (setKey m k v) k = v := by
  unfold setKey
  cases h : m.any (fun p => p.1 == k) with
  | true =>
    rw [if_pos rfl]
    exact lookupKey_mapReplace m k v h
  | false =>
    rw [if_neg Bool.false_ne_true]
    exact lookupKey_append_new m k v h

theorem hasId_of_mem_lookupKey (m : List (String × List Nat)) (k : String)
    (i : Nat) (h : i ∈ lookupKey m k) : hasIdInKeyed m i = true := by
  unfold lookupKey at h
  cases hf : List.find? (fun p => p.1 == k) m with
  | none =>
    rw [hf] at h
    exact absurd h (List.not_mem_nil i)
  | some p =>
    rw [hf] at h
    rw [hasIdInKeyed, List.any_eq_true]
    exact ⟨p, List.mem_of_find?_eq_some hf, by simpa using h⟩

/-- C10: the singular getters get_property and get_calculation return the
stored id exactly when the id list under the label holds exactly one id (and
then return that id); after a second id is added under the same label the
singular getter fails while the id overload of has_property, respectively
has_calculation, still succeeds for each of the two individual ids.
Replicates structure_test.py test_property_one and test_calculation_one. -/
theorem singular_index_getter_unique :
    (∀ (d : StructureData) (label : String),
      (∃ i, Structure.get_property d label = Except.ok i) ↔
        (lookupKey d.properties label).length = 1) ∧
    (∀ (d : StructureData) (label : String) (i : Nat),
      lookupKey d.properties label = [i] →
      Structure.get_property d label = Except.ok i) ∧
    (∀ (d : StructureData) (label : String),
      (∃ i, Structure.get_calculation d label = Except.ok i) ↔
        (lookupKey d.calculations label).length = 1) ∧
    (∀ (d : StructureData) (label : String) (i : Nat),
      lookupKey d.calculations label = [i] →
      Structure.get_calculation d label = Except.ok i) ∧
    (∀ (d : StructureData) (label : String) (i j : Nat),
      Structure.get_property (Structure.set_property d label i) label = Except.ok i ∧
      Structure.get_property
          (Structure.add_property (Structure.set_property d label i) label j) label =
        Except.error DbError.multipleEntries ∧
      Structure.has_property
          (Structure.add_property (Structure.set_property d label i) label j) i = true ∧
      Structure.has_property
          (Structure.add_property (Structure.set_property d label i) label j) j = true) ∧
    (∀ (d : StructureData) (label : String) (i j : Nat),
      Structure.get_calculation (Structure.set_calculation d label i) label = Except.ok i ∧
      Structure.get_calculation
          (Structure.add_calculation (Structure.set_calculation d label i) label j) label =
        Except.error DbError.multipleEntries ∧
      Structure.has_calculation
          (Structure.add_calculation (Structure.set_calculation d label i) label j) i = true ∧
      Structure.has_calculation
          (Structure.add_calculation (Structure.set_calculation d label i) label j) j = true) := by
  have hiff : ∀ (m : List (String × List Nat)) (k : String),
      (∃ i, getSingleEntry m k = Except.ok i) ↔ (lookupKey m k).length = 1 := by
    intro m k
    rcases hl : lookupKey m k with _ | ⟨x, _ | ⟨y, rest⟩⟩ <;>
      simp [getSingleEntry, hl]
  have hone : ∀ (m : List (String × List Nat)) (k : String) (i : Nat),
      lookupKey m k = [i] → getSingleEntry m k = Except.ok i := by
    intro m k i h
    simp [getSingleEntry, h]
  have htwo : ∀ (m : List (String × List Nat)) (k : String) (i j : Nat),
      getSingleEntry (setKey m k [i]) k = Except.ok i ∧
      getSingleEntry (setKey (setKey m k [i]) k (lookupKey (setKey m k [i]) k ++ [j])) k =
        Except.error DbError.multipleEntries ∧
      hasIdInKeyed (setKey (setKey m k [i]) k (lookupKey (setKey m k [i]) k ++ [j])) i = true ∧
      hasIdInKeyed (setKey (setKey m k [i]) k (lookupKey (setKey m k [i]) k ++ [j])) j = true := by
    intro m k i j
    have h1 : lookupKey (setKey m k [i]) k = [i] := lookupKey_setKey m k [i]
    have h2 : lookupKey (setKey (setKey m k [i]) k (lookupKey (setKey m k [i]) k ++ [j])) k =
        [i, j] := by
      rw [h1, lookupKey_setKey]
      rfl
    refine ⟨hone _ k i h1, by simp [getSingleEntry, h2], ?_, ?_⟩
    · exact hasId_of_mem_lookupKey _ k i (by rw [h2]; exact List.mem_cons_self i [j])
    · exact hasId_of_mem_lookupKey _ k j (by rw [h2]; simp)
  exact ⟨fun d label => hiff d.properties label,
    fun d label i h => hone d.properties label i h,
    fun d label => hiff d.calculations label,
    fun d label i h => hone d.calculations label i h,
    fun d label i j => htwo d.properties label i j,
    fun d label i j => htwo d.calculations label i j⟩

/-- Witness for C10: the unique-entry getter applied at a structure holding
exactly one id under the label hessian. -/
theorem singular_index_getter_unique_witness :
    Structure.get_property
        { model := mkModel "dft" "pbe" "def2-svp", label := Label.MINIMUM_GUESS,
          properties := [("hessian", [1])] } "hessian" = Except.ok 1 :=
  singular_index_getter_unique.2.1
    { model := mkModel "dft" "pbe" "def2-svp", label := Label.MINIMUM_GUESS,
      properties := [("hessian", [1])] }
    "hessian" 1 (by decide)

end Db
